import Mathlib

/-!
Verification of the content-editing state machine, mock authentication gate,
persistence sync, contact endpoint and gallery filter of the Landing-blue
repository (`src/app/page.tsx`, `src/app/api/contact/route.ts`).

The TypeScript code is shallowly embedded: the React `setState` updaters are
modelled as pure functions on explicit state records, applied sequentially
(the code is single-threaded and every handler runs to completion, per the
concurrency section of the spec).  `structuredClone` on immutable values is the
identity, so the deep-clone step of `updateContent` is modelled by using the
value itself.  Timestamps (`Date.now()`) are natural numbers of milliseconds.
-/

namespace LandingBlue

/-! ### Undo/redo editor state (page.tsx lines 794-829)

`content` is the current `ContentState`; `history` and `future` are the
undo/redo stacks, most recent first, exactly as the arrays in `AdminState`.
The machinery is generic in the content type `C` (the code never inspects
the snapshots it stacks). -/

structure EditorState (C : Type) where
  content : C
  history : List C
  future : List C
deriving DecidableEq

/-- `const HISTORY_LIMIT = 20;` (page.tsx line 56). -/
def HISTORY_LIMIT : Nat := 20

/-- `updateContent` combined with the `pushHistory` it invokes
(page.tsx lines 794-809): the mutated clone becomes current, the
pre-mutation state is pushed on `history` (`[snapshot, ...s.history]
.slice(0, HISTORY_LIMIT)`), and `future` is cleared. -/
def updateContent {C : Type} (mutate : C → C) (s : EditorState C) : EditorState C :=
  { content := mutate s.content
    history := (s.content :: s.history).take HISTORY_LIMIT
    future := [] }

/-- `handleUndo` (page.tsx lines 811-819). -/
def handleUndo {C : Type} (s : EditorState C) : EditorState C :=
  match s.history with
  | [] => s
  | latest :: rest =>
    { content := latest
      history := rest
      future := (s.content :: s.future).take HISTORY_LIMIT }

/-- `handleRedo` (page.tsx lines 821-829). -/
def handleRedo {C : Type} (s : EditorState C) : EditorState C :=
  match s.future with
  | [] => s
  | latest :: rest =>
    { content := latest
      history := (s.content :: s.history).take HISTORY_LIMIT
      future := rest }

/-- One user-level operation on the editor. -/
inductive EditOp (C : Type) where
  | edit (mutate : C → C)
  | undo
  | redo

def applyOp {C : Type} (s : EditorState C) : EditOp C → EditorState C
  | .edit mutate => updateContent mutate s
  | .undo => handleUndo s
  | .redo => handleRedo s

def applyOps {C : Type} (ops : List (EditOp C)) (s : EditorState C) : EditorState C :=
  ops.foldl applyOp s

/-- A run of pure edits. -/
def applyEdits {C : Type} (fs : List (C → C)) (s : EditorState C) : EditorState C :=
  fs.foldl (fun t f => updateContent f t) s

/-- A run of `n` undos. -/
def undoIter {C : Type} : Nat → EditorState C → EditorState C
  | 0, s => s
  | n + 1, s => undoIter n (handleUndo s)

/-- C2: every content mutation installs the mutated (clone of the) old
current state, pushes the pre-mutation state on the history stack truncated
to 20 entries, clears the future stack, and consequently an immediate redo
is a no-op. -/
theorem updateContent_spec {C : Type} (mutate : C → C) (s : EditorState C) :
    (updateContent mutate s).content = mutate s.content ∧
    (updateContent mutate s).history = (s.content :: s.history).take HISTORY_LIMIT ∧
    (updateContent mutate s).future = [] ∧
    handleRedo (updateContent mutate s) = updateContent mutate s := by
  refine ⟨rfl, rfl, rfl, ?_⟩
  simp [handleRedo, updateContent]

/-- C3: undo on a non-empty history pops its most recent entry, pushes the
current content on the future stack capped at 20, and installs the popped
entry as current; redo mirrors this with the future stack; undo on an empty
history and redo on an empty future are no-ops. -/
theorem undo_redo_spec {C : Type} (s : EditorState C) :
    (s.history = [] → handleUndo s = s) ∧
    (s.future = [] → handleRedo s = s) ∧
    (∀ latest rest, s.history = latest :: rest →
      handleUndo s =
        { content := latest
          history := rest
          future := (s.content :: s.future).take HISTORY_LIMIT }) ∧
    (∀ latest rest, s.future = latest :: rest →
      handleRedo s =
        { content := latest
          history := (s.content :: s.history).take HISTORY_LIMIT
          future := rest }) := by
  refine ⟨?_, ?_, ?_, ?_⟩
  · intro h; simp [handleUndo, h]
  · intro h; simp [handleRedo, h]
  · intro latest rest h; simp [handleUndo, h]
  · intro latest rest h; simp [handleRedo, h]

/-- Witness for `undo_redo_spec` at a concrete state. -/
theorem undo_redo_spec_witness :
    handleUndo (⟨0, [1, 2], [3]⟩ : EditorState Nat) = ⟨1, [2], [0, 3]⟩ ∧
    handleRedo (⟨0, [1, 2], [3]⟩ : EditorState Nat) = ⟨3, [0, 1, 2], []⟩ ∧
    handleUndo (⟨0, [], []⟩ : EditorState Nat) = ⟨0, [], []⟩ ∧
    handleRedo (⟨0, [], []⟩ : EditorState Nat) = ⟨0, [], []⟩ :=
  ⟨(undo_redo_spec ⟨0, [1, 2], [3]⟩).2.2.1 1 [2] rfl,
   (undo_redo_spec ⟨0, [1, 2], [3]⟩).2.2.2 3 [] rfl,
   (undo_redo_spec ⟨0, [], []⟩).1 rfl,
   (undo_redo_spec ⟨0, [], []⟩).2.1 rfl⟩

/-! ### Helper lemmas for the undo-after-edits property (C1) and the
stack-size invariant (C4). -/

theorem applyOps_append {C : Type} (l r : List (EditOp C)) (s : EditorState C) :
    applyOps (l ++ r) s = applyOps r (applyOps l s) := by
  simp [applyOps, List.foldl_append]

theorem applyOps_map_edit {C : Type} (fs : List (C → C)) (s : EditorState C) :
    applyOps (fs.map EditOp.edit) s = applyEdits fs s := by
  induction fs generalizing s with
  | nil => rfl
  | cons f fs ih => simp [applyOps, applyEdits, List.foldl_cons] at ih ⊢; exact ih _

theorem applyOps_replicate_undo {C : Type} (n : Nat) (s : EditorState C) :
    applyOps (List.replicate n EditOp.undo) s = undoIter n s := by
  induction n generalizing s with
  | zero => rfl
  | succ n ih =>
    rw [List.replicate_succ]
    simp [applyOps, List.foldl_cons] at ih ⊢
    exact ih _

theorem applyEdits_concat {C : Type} (fs : List (C → C)) (f : C → C) (s : EditorState C) :
    applyEdits (fs ++ [f]) s = updateContent f (applyEdits fs s) := by
  simp [applyEdits, List.foldl_append]

/-- The history stack after a run of edits holds at least
`min (initial length + number of edits) 20` entries. -/
theorem applyEdits_history_length {C : Type} (fs : List (C → C)) (s : EditorState C) :
    min (s.history.length + fs.length) HISTORY_LIMIT ≤ (applyEdits fs s).history.length := by
  induction fs generalizing s with
  | nil => simp only [applyEdits, List.foldl_nil, List.length_nil]; omega
  | cons f fs ih =>
    have h := ih (updateContent f s)
    simp only [applyEdits, List.foldl_cons] at h ⊢
    have hlen : (updateContent f s).history.length = min HISTORY_LIMIT (s.history.length + 1) := by
      simp [updateContent]
    rw [hlen] at h
    refine le_trans ?_ h
    simp only [List.length_cons]
    omega

/-- The content obtained after `k` undos depends only on the current content
and the first `k` history entries. -/
theorem undoIter_content_congr {C : Type} :
    ∀ (k : Nat) (s t : EditorState C),
      s.content = t.content →
      s.history.take k = t.history.take k →
      k ≤ s.history.length → k ≤ t.history.length →
      (undoIter k s).content = (undoIter k t).content := by
  intro k
  induction k with
  | zero => intro s t hc _ _ _; exact hc
  | succ k ih =>
    intro s t hc htake hs ht
    cases hsh : s.history with
    | nil => rw [hsh] at hs; simp at hs
    | cons a hs1 =>
      cases hth : t.history with
      | nil => rw [hth] at ht; simp at ht
      | cons b ht1 =>
        rw [hsh, hth] at htake
        simp only [List.take_succ_cons, List.cons.injEq] at htake
        obtain ⟨hab, htake1⟩ := htake
        have hs1len : k ≤ hs1.length := by
          rw [hsh] at hs; simp only [List.length_cons] at hs; omega
        have ht1len : k ≤ ht1.length := by
          rw [hth] at ht; simp only [List.length_cons] at ht; omega
        have hu : handleUndo s = { content := a, history := hs1, future := (s.content :: s.future).take HISTORY_LIMIT } := by
          simp [handleUndo, hsh]
        have hv : handleUndo t = { content := b, history := ht1, future := (t.content :: t.future).take HISTORY_LIMIT } := by
          simp [handleUndo, hth]
        show (undoIter k (handleUndo s)).content = (undoIter k (handleUndo t)).content
        rw [hu, hv]
        exact ih _ _ hab htake1 hs1len ht1len

/-- Core lemma: `N` undos after a run of edits (with `N` at most both the
number of edits and the history limit) restore the content reached after the
first `length - N` edits. -/
theorem undoIter_applyEdits {C : Type} :
    ∀ (N : Nat) (fs : List (C → C)) (s : EditorState C),
      N ≤ fs.length → N ≤ HISTORY_LIMIT →
      (undoIter N (applyEdits fs s)).content =
        (applyEdits (fs.take (fs.length - N)) s).content := by
  intro N
  induction N with
  | zero =>
    intro fs s _ _
    simp [undoIter]
  | succ n ih =>
    intro fs s hlen hcap
    rcases List.eq_nil_or_concat fs with rfl | ⟨gs, f, rfl⟩
    · simp at hlen
    · rw [List.concat_eq_append] at *
      have hgs : n ≤ gs.length := by simp at hlen; omega
      set t := applyEdits gs s with ht
      rw [applyEdits_concat]
      have hstep : handleUndo (updateContent f t) =
          { content := t.content
            history := t.history.take (HISTORY_LIMIT - 1)
            future := [f t.content] } := by
        have : (t.content :: t.history).take HISTORY_LIMIT =
            t.content :: t.history.take (HISTORY_LIMIT - 1) := by
          simp [HISTORY_LIMIT]
        simp [handleUndo, updateContent, this, HISTORY_LIMIT]
      show (undoIter n (handleUndo (updateContent f t))).content = _
      rw [hstep]
      have hTlen : n ≤ t.history.length := by
        have := applyEdits_history_length gs s
        rw [← ht] at this
        simp [HISTORY_LIMIT] at this hcap
        omega
      have hcong : (undoIter n (⟨t.content,
          t.history.take (HISTORY_LIMIT - 1),
          [f t.content]⟩ : EditorState C)).content =
          (undoIter n t).content := by
        apply undoIter_content_congr
        · rfl
        · show (t.history.take (HISTORY_LIMIT - 1)).take n = t.history.take n
          rw [List.take_take]
          congr 1
          simp [HISTORY_LIMIT] at hcap ⊢
          omega
        · simp [HISTORY_LIMIT] at hcap ⊢
          omega
        · exact hTlen
      rw [hcong, ht]
      rw [ih gs s hgs (le_trans (Nat.le_succ n) hcap)]
      congr 2
      rw [List.length_append, List.length_singleton]
      have harith : gs.length + 1 - (n + 1) = gs.length - n := by omega
      rw [harith, List.take_append_of_le_length (by omega)]

/-- C1 (amended): a run of edits followed by `N` undos, with `N` at most the
number of edits AND at most the history limit 20, restores the content that
held before those `N` edits (i.e. the content after the first
`edits - N` edits). -/
theorem edits_then_undos {C : Type} (fs : List (C → C)) (N : Nat) (s : EditorState C)
    (h1 : N ≤ fs.length) (h2 : N ≤ HISTORY_LIMIT) :
    (applyOps (fs.map EditOp.edit ++ List.replicate N EditOp.undo) s).content =
      (applyOps ((fs.take (fs.length - N)).map EditOp.edit) s).content := by
  rw [applyOps_append, applyOps_map_edit, applyOps_map_edit, applyOps_replicate_undo]
  exact undoIter_applyEdits N fs s h1 h2

/-- Witness for `edits_then_undos`: three increments then two undos restore
the content reached after the first edit. -/
theorem edits_then_undos_witness :
    2 ≤ ([Nat.succ, Nat.succ, Nat.succ] : List (Nat → Nat)).length ∧
    2 ≤ HISTORY_LIMIT ∧
    (applyOps (([Nat.succ, Nat.succ, Nat.succ] : List (Nat → Nat)).map EditOp.edit ++
        List.replicate 2 EditOp.undo) ⟨0, [], []⟩).content =
      (applyOps ((([Nat.succ, Nat.succ, Nat.succ] : List (Nat → Nat)).take
        (([Nat.succ, Nat.succ, Nat.succ] : List (Nat → Nat)).length - 2)).map EditOp.edit)
        ⟨0, [], []⟩).content :=
  ⟨by decide, by decide,
   edits_then_undos [Nat.succ, Nat.succ, Nat.succ] 2 ⟨0, [], []⟩ (by decide) (by decide)⟩

/-- C1 counterexample: with 21 edits (each `succ`, starting from content 0)
followed by 21 undos — `N = 21` does not exceed the number of edits — the
resulting content is 1, not the content 0 that held before those 21 edits:
the history cap of 20 evicted the oldest snapshot. -/
theorem edits_then_undos_cap_counterexample :
    (applyOps (List.replicate 21 (EditOp.edit Nat.succ) ++ List.replicate 21 EditOp.undo)
        (⟨0, [], []⟩ : EditorState Nat)).content = 1 ∧
    (⟨0, [], []⟩ : EditorState Nat).content = 0 ∧ (1 : Nat) ≠ 0 :=
  ⟨rfl, rfl, by decide⟩

/-- Both stacks stay within the 20-entry limit. -/
def stacksBounded {C : Type} (s : EditorState C) : Prop :=
  s.history.length ≤ HISTORY_LIMIT ∧ s.future.length ≤ HISTORY_LIMIT

theorem applyOp_stacksBounded {C : Type} (op : EditOp C) (s : EditorState C)
    (h : stacksBounded s) : stacksBounded (applyOp s op) := by
  obtain ⟨h1, h2⟩ := h
  cases op with
  | edit f =>
    refine ⟨?_, ?_⟩ <;> simp [applyOp, updateContent, stacksBounded]
  | undo =>
    cases hh : s.history with
    | nil => simp only [applyOp, handleUndo, hh]; exact ⟨h1, h2⟩
    | cons a rest =>
      rw [hh] at h1
      simp only [List.length_cons] at h1
      refine ⟨?_, ?_⟩
      · simp [applyOp, handleUndo, hh]; omega
      · simp [applyOp, handleUndo, hh]
  | redo =>
    cases hh : s.future with
    | nil => simp only [applyOp, handleRedo, hh]; exact ⟨h1, h2⟩
    | cons a rest =>
      rw [hh] at h2
      simp only [List.length_cons] at h2
      refine ⟨?_, ?_⟩
      · simp [applyOp, handleRedo, hh]
      · simp [applyOp, handleRedo, hh]; omega

theorem applyOps_stacksBounded {C : Type} (ops : List (EditOp C)) (s : EditorState C)
    (h : stacksBounded s) : stacksBounded (applyOps ops s) := by
  induction ops generalizing s with
  | nil => exact h
  | cons op ops ih =>
    simp only [applyOps, List.foldl_cons] at ih ⊢
    exact ih _ (applyOp_stacksBounded op s h)

/-- C4: for every sequence of edit, undo and redo operations starting from
empty stacks, the history stack and the future stack each never exceed 20
entries. -/
theorem history_future_never_exceed_limit {C : Type} (c0 : C) (ops : List (EditOp C)) :
    (applyOps ops ⟨c0, [], []⟩).history.length ≤ HISTORY_LIMIT ∧
    (applyOps ops ⟨c0, [], []⟩).future.length ≤ HISTORY_LIMIT :=
  applyOps_stacksBounded ops ⟨c0, [], []⟩ ⟨by simp [HISTORY_LIMIT], by simp [HISTORY_LIMIT]⟩

/-! ### Mock authentication gate (page.tsx lines 56-58, 263-333, 831-837)

`AuthState` gathers the pieces of component state the login handlers touch:
the `failedCount`/`lockUntil` fields of `AdminState`, the `role` and
`authenticated` fields, the `step` of the auth modal and the current
`authError` message.  `now` is the sampled `Date.now()` value in
milliseconds. -/

inductive Role where
  | admin
  | editor
deriving DecidableEq

inductive Step where
  | login
  | code
deriving DecidableEq

structure User where
  email : String
  password : String
  role : Role
  tfa : Bool
deriving DecidableEq

/-- `mockUsers` (page.tsx lines 275-278). -/
def mockUsers : List User :=
  [⟨"admin@example.com", "admin123", Role.admin, true⟩,
   ⟨"editor@example.com", "editor123", Role.editor, false⟩]

structure AuthState where
  failedCount : Nat
  lockUntil : Nat
  role : Option Role
  authenticated : Bool
  step : Step
  authError : Option String
deriving DecidableEq

/-- `const ADMIN_LOCK_THRESHOLD = 3;` (page.tsx line 57). -/
def ADMIN_LOCK_THRESHOLD : Nat := 3

/-- `const ADMIN_LOCK_MS = 5 * 60 * 1000;` (page.tsx line 58). -/
def ADMIN_LOCK_MS : Nat := 5 * 60 * 1000

/-- `adminLocked` (page.tsx line 837):
`adminState.lockUntil > 0 && now < adminState.lockUntil`. -/
def adminLocked (s : AuthState) (now : Nat) : Bool :=
  decide (0 < s.lockUntil) && decide (now < s.lockUntil)

/-- JavaScript `String.prototype.toLowerCase` restricted to ASCII letters
(the only characters occurring in the credential strings). -/
def asciiLowerChar (c : Char) : Char :=
  if 'A' ≤ c ∧ c ≤ 'Z' then Char.ofNat (c.toNat + 32) else c

def jsToLowerCase (s : String) : String := ⟨s.data.map asciiLowerChar⟩

/-- JavaScript `String.prototype.trim`: strip leading and trailing
whitespace (modelled for the common ASCII whitespace characters). -/
def jsWhitespace (c : Char) : Bool := c == ' ' || c == '\t' || c == '\n' || c == '\r'

def jsTrim (s : String) : String :=
  ⟨((s.data.dropWhile jsWhitespace).reverse.dropWhile jsWhitespace).reverse⟩

/-- The credential lookup shared by `handleLogin` and `handleCode`
(page.tsx lines 285-289 and 320-324): case-insensitive email comparison and
exact password comparison against `mockUsers`. -/
def findUser (email password : String) : Option User :=
  mockUsers.find? fun u =>
    jsToLowerCase u.email == jsToLowerCase email && u.password == password

def lockedMsg : String := "Доступ временно заблокирован. Попробуйте позже."
def badCredsMsg : String := "Неверный логин или пароль"
def badCodeMsg : String := "Неверный код 2FA (используй 000000)"
def sessionExpiredMsg : String := "Сессия устарела, перезайдите"

/-- `handleLogin` (page.tsx lines 280-309). -/
def handleLogin (email password : String) (now : Nat) (s : AuthState) : AuthState :=
  if adminLocked s now then
    { s with authError := some lockedMsg }
  else
    match findUser email password with
    | none =>
      let failed := s.failedCount + 1
      if ADMIN_LOCK_THRESHOLD ≤ failed then
        { s with authError := some badCredsMsg, failedCount := 0,
                 lockUntil := now + ADMIN_LOCK_MS }
      else
        { s with authError := some badCredsMsg, failedCount := failed }
    | some u =>
      if u.tfa then
        { s with step := Step.code, authError := none }
      else
        { s with role := some u.role, authenticated := true, failedCount := 0,
                 authError := none }

/-- `handleCode` (page.tsx lines 311-333). -/
def handleCode (email password code : String) (now : Nat) (s : AuthState) : AuthState :=
  if adminLocked s now then
    { s with authError := some lockedMsg }
  else if jsTrim code != "000000" && jsTrim code != "123456" then
    { s with authError := some badCodeMsg }
  else
    match findUser email password with
    | none =>
      { s with authError := some sessionExpiredMsg, step := Step.login }
    | some u =>
      { s with role := some u.role, authenticated := true, failedCount := 0,
               authError := none }

/-- C5: on a mismatching login below the threshold the failure counter is
incremented; on the attempt where it reaches 3 the lockout expiry is set
`ADMIN_LOCK_MS` (5 minutes) in the future and the counter resets to 0; and
while `now` is before the lockout expiry every login attempt — whatever the
credentials — only sets the locked error, leaving `authenticated` (and all
other fields) unchanged. -/
theorem handleLogin_lockout_spec (email password : String) (now : Nat) (s : AuthState) :
    (adminLocked s now = false → findUser email password = none →
      s.failedCount + 1 < ADMIN_LOCK_THRESHOLD →
      handleLogin email password now s =
        { s with authError := some badCredsMsg, failedCount := s.failedCount + 1 }) ∧
    (adminLocked s now = false → findUser email password = none →
      ADMIN_LOCK_THRESHOLD ≤ s.failedCount + 1 →
      handleLogin email password now s =
        { s with authError := some badCredsMsg, failedCount := 0,
                 lockUntil := now + ADMIN_LOCK_MS }) ∧
    (now < s.lockUntil →
      handleLogin email password now s = { s with authError := some lockedMsg } ∧
      (handleLogin email password now s).authenticated = s.authenticated) := by
  refine ⟨?_, ?_, ?_⟩
  · intro hlock hfind hlt
    simp only [handleLogin, hlock, Bool.false_eq_true, if_false, hfind]
    rw [if_neg (by omega)]
  · intro hlock hfind hge
    simp only [handleLogin, hlock, Bool.false_eq_true, if_false, hfind]
    rw [if_pos (by omega)]
  · intro hnow
    have hl : adminLocked s now = true := by
      simp only [adminLocked, Bool.and_eq_true, decide_eq_true_eq]
      omega
    constructor
    · simp [handleLogin, hl]
    · simp [handleLogin, hl]

/-- Witness for `handleLogin_lockout_spec`: a third consecutive failure sets
the 5-minute lock, a later attempt with the correct admin credentials during
the lock window is rejected with the locked error, and a first failure just
increments the counter. -/
theorem handleLogin_lockout_spec_witness :
    handleLogin "a@b.c" "x" 1000 ⟨2, 0, none, false, Step.login, none⟩ =
      ⟨0, 301000, none, false, Step.login, some badCredsMsg⟩ ∧
    handleLogin "admin@example.com" "admin123" 2000
        ⟨0, 301000, none, false, Step.login, some badCredsMsg⟩ =
      ⟨0, 301000, none, false, Step.login, some lockedMsg⟩ ∧
    handleLogin "a@b.c" "x" 500 ⟨0, 0, none, false, Step.login, none⟩ =
      ⟨1, 0, none, false, Step.login, some badCredsMsg⟩ :=
  ⟨(handleLogin_lockout_spec "a@b.c" "x" 1000 ⟨2, 0, none, false, Step.login, none⟩).2.1
      (by decide) (by decide) (by decide),
   ((handleLogin_lockout_spec "admin@example.com" "admin123" 2000
      ⟨0, 301000, none, false, Step.login, some badCredsMsg⟩).2.2 (by decide)).1,
   (handleLogin_lockout_spec "a@b.c" "x" 500 ⟨0, 0, none, false, Step.login, none⟩).1
      (by decide) (by decide) (by decide)⟩

/-- C6 counterexample: the submitted code `" 000000"` (leading space) is a
code other than `"000000"` and other than `"123456"`, yet with valid
two-factor credentials it authenticates as admin, because `handleCode`
trims the code before comparing. -/
theorem handleCode_trim_counterexample :
    (" 000000" : String) ≠ "000000" ∧ (" 000000" : String) ≠ "123456" ∧
    (handleCode "admin@example.com" "admin123" " 000000" 0
        ⟨0, 0, none, false, Step.code, none⟩).authenticated = true ∧
    (handleCode "admin@example.com" "admin123" " 000000" 0
        ⟨0, 0, none, false, Step.code, none⟩).role = some Role.admin := by
  refine ⟨by decide, by decide, by decide, by decide⟩

/-- C6 (amended): in the code-entry step (not locked), a code whose trimmed
value is neither `"000000"` nor `"123456"` only sets the code error —
`authenticated` and `role` are unchanged; a code trimming to one of the two
accepted literals together with credentials matching an account sets
`authenticated := true`, `role` to the role of that account and resets the
failure counter. -/
theorem handleCode_spec (email password code : String) (now : Nat) (s : AuthState)
    (hlock : adminLocked s now = false) :
    (jsTrim code ≠ "000000" → jsTrim code ≠ "123456" →
      handleCode email password code now s = { s with authError := some badCodeMsg }) ∧
    (∀ u, (jsTrim code = "000000" ∨ jsTrim code = "123456") →
      findUser email password = some u →
      handleCode email password code now s =
        { s with role := some u.role, authenticated := true, failedCount := 0,
                 authError := none }) := by
  constructor
  · intro h1 h2
    have hcond : (jsTrim code != "000000" && jsTrim code != "123456") = true := by
      simp [bne_iff_ne, h1, h2]
    simp [handleCode, hlock, hcond]
  · intro u hcode hfind
    have hcond : (jsTrim code != "000000" && jsTrim code != "123456") = false := by
      rcases hcode with h | h <;> simp [h]
    simp [handleCode, hlock, hcond, hfind]

/-- Witness for `handleCode_spec`: a wrong code leaves the session
unauthenticated, the code `"000000"` with the admin credentials
authenticates as admin. -/
theorem handleCode_spec_witness :
    handleCode "admin@example.com" "admin123" "999999" 5
        ⟨0, 0, none, false, Step.code, none⟩ =
      ⟨0, 0, none, false, Step.code, some badCodeMsg⟩ ∧
    handleCode "admin@example.com" "admin123" "000000" 5
        ⟨0, 0, none, false, Step.code, none⟩ =
      ⟨0, 0, some Role.admin, true, Step.code, none⟩ :=
  ⟨(handleCode_spec "admin@example.com" "admin123" "999999" 5
      ⟨0, 0, none, false, Step.code, none⟩ (by decide)).1 (by decide) (by decide),
   (handleCode_spec "admin@example.com" "admin123" "000000" 5
      ⟨0, 0, none, false, Step.code, none⟩ (by decide)).2
      ⟨"admin@example.com", "admin123", Role.admin, true⟩ (Or.inl (by decide)) (by decide)⟩

/-- C10: in the code-entry step the credentials are looked up again: if they
no longer match any account, even an accepted code does not authenticate —
the whole state is unchanged except that the session-expired error is set
and the flow returns to the login step (in particular `authenticated` and
`role` keep their values). -/
theorem handleCode_stale_credentials (email password code : String) (now : Nat)
    (s : AuthState)
    (hlock : adminLocked s now = false)
    (hcode : jsTrim code = "000000" ∨ jsTrim code = "123456")
    (hfind : findUser email password = none) :
    handleCode email password code now s =
      { s with authError := some sessionExpiredMsg, step := Step.login } := by
  have hcond : (jsTrim code != "000000" && jsTrim code != "123456") = false := by
    rcases hcode with h | h <;> simp [h]
  simp [handleCode, hlock, hcond, hfind]

/-- Witness for `handleCode_stale_credentials`: a correct code with a
password matching no account sets the session-expired error, returns to the
login step and does not authenticate. -/
theorem handleCode_stale_credentials_witness :
    handleCode "admin@example.com" "wrongpass" "000000" 5
        ⟨0, 0, none, false, Step.code, none⟩ =
      ⟨0, 0, none, false, Step.login, some sessionExpiredMsg⟩ :=
  handleCode_stale_credentials "admin@example.com" "wrongpass" "000000" 5
    ⟨0, 0, none, false, Step.code, none⟩ (by decide) (Or.inl (by decide)) (by decide)

/-! ### Admin-state persistence (page.tsx lines 665-744)

`AdminState` is the full React state record (generic in the `ContentState`
type `C` stacked in `history`/`future`).  The persisted value is modelled by
`PersistedAdmin`, a record of optional fields: `none` means the key is
absent from the stored JSON object, mirroring the JavaScript object spread
`{ ...defaultState, ...parsed, history: [], future: [] }` (an absent key
leaves the default, a present key overrides it).  A missing or unparsable
stored value is modelled by `Option.none` at the outer level. -/

inductive Preview where
  | desktop
  | tablet
  | mobile
deriving DecidableEq

inductive AnimationType where
  | fade
  | slide
  | zoom
deriving DecidableEq

inductive SectionKey where
  | hero
  | features
  | services
  | gallery
  | contact
deriving DecidableEq

structure SectionState where
  id : SectionKey
  label : String
  enabled : Bool
deriving DecidableEq

structure FieldConfig where
  enabled : Bool
  label : String
deriving DecidableEq

structure FormFields where
  name : FieldConfig
  email : FieldConfig
  phone : FieldConfig
  message : FieldConfig
deriving DecidableEq

structure Recipients where
  email : String
  crm : String
deriving DecidableEq

structure Submission where
  name : Option String
  email : Option String
  phone : Option String
  message : Option String
  date : String
deriving DecidableEq

structure AdminState (C : Type) where
  preview : Preview
  animationsEnabled : Bool
  animationType : AnimationType
  sections : List SectionState
  formFields : FormFields
  recipients : Recipients
  submissions : List Submission
  lockUntil : Nat
  failedCount : Nat
  history : List C
  future : List C
  role : Option Role
  authenticated : Bool
deriving DecidableEq

/-- `defaultState` of the `adminState` initializer (page.tsx lines 666-691). -/
def defaultAdminState (C : Type) : AdminState C :=
  { preview := Preview.desktop
    animationsEnabled := true
    animationType := AnimationType.fade
    sections :=
      [⟨SectionKey.hero, "Hero", true⟩,
       ⟨SectionKey.features, "Преимущества", true⟩,
       ⟨SectionKey.services, "Функционал", true⟩,
       ⟨SectionKey.gallery, "Галерея", true⟩,
       ⟨SectionKey.contact, "Контакты", true⟩]
    formFields :=
      { name := ⟨true, "Имя"⟩
        email := ⟨true, "Email"⟩
        phone := ⟨false, "Телефон"⟩
        message := ⟨true, "Сообщение"⟩ }
    recipients := ⟨"hello@example.com", "https://crm.local/webhook"⟩
    submissions := []
    lockUntil := 0
    failedCount := 0
    history := []
    future := []
    role := none
    authenticated := false }

/-- A parsed persisted value (`Partial<AdminState>` in the source): each
field is present (`some`) or absent (`none`). -/
structure PersistedAdmin (C : Type) where
  preview : Option Preview := none
  animationsEnabled : Option Bool := none
  animationType : Option AnimationType := none
  sections : Option (List SectionState) := none
  formFields : Option FormFields := none
  recipients : Option Recipients := none
  submissions : Option (List Submission) := none
  lockUntil : Option Nat := none
  failedCount : Option Nat := none
  history : Option (List C) := none
  future : Option (List C) := none
  role : Option (Option Role) := none
  authenticated : Option Bool := none
deriving DecidableEq

/-- The `toStore` object of the persistence effect (page.tsx lines 723-730):
only `preview`, `animationsEnabled`, `animationType`, `sections`,
`formFields` and `recipients` are written; every other key is absent. -/
def storeAdmin {C : Type} (s : AdminState C) : PersistedAdmin C :=
  { preview := some s.preview
    animationsEnabled := some s.animationsEnabled
    animationType := some s.animationType
    sections := some s.sections
    formFields := some s.formFields
    recipients := some s.recipients }

/-- The `adminState` initializer (page.tsx lines 692-703): with no stored
value, or one that fails to parse (`raw = none`), the bundled default is
used; otherwise `{ ...defaultState, ...parsed, history: [], future: [] }`. -/
def loadAdminState {C : Type} (raw : Option (PersistedAdmin C)) : AdminState C :=
  match raw with
  | none => defaultAdminState C
  | some p =>
    { preview := p.preview.getD (defaultAdminState C).preview
      animationsEnabled := p.animationsEnabled.getD (defaultAdminState C).animationsEnabled
      animationType := p.animationType.getD (defaultAdminState C).animationType
      sections := p.sections.getD (defaultAdminState C).sections
      formFields := p.formFields.getD (defaultAdminState C).formFields
      recipients := p.recipients.getD (defaultAdminState C).recipients
      submissions := p.submissions.getD (defaultAdminState C).submissions
      lockUntil := p.lockUntil.getD (defaultAdminState C).lockUntil
      failedCount := p.failedCount.getD (defaultAdminState C).failedCount
      history := []
      future := []
      role := p.role.getD (defaultAdminState C).role
      authenticated := p.authenticated.getD (defaultAdminState C).authenticated }

/-- A syntactically valid persisted value that carries `authenticated: true`
and `role: "admin"` — keys the app itself never writes. -/
def tamperedPersisted : PersistedAdmin Nat :=
  { authenticated := some true, role := some (some Role.admin) }

/-- C7 counterexample: the claim quantifies over every persisted value, but
a valid stored JSON object carrying `authenticated`/`role` keys is spread
into the initial state, so the loaded session is NOT unauthenticated. -/
theorem loadAdminState_tampered_counterexample :
    (loadAdminState (some tamperedPersisted)).authenticated = true ∧
    (loadAdminState (some tamperedPersisted)).role = some Role.admin :=
  ⟨rfl, rfl⟩

/-- C7 (amended): the value the app persists never contains the
authentication status, the history stack or the future stack; on load the
history and future stacks are always reset to empty (for every persisted
value, including a missing/malformed one); and the loaded state is
unauthenticated (`role = none`, `authenticated = false`) for every persisted
value that does not itself carry `role`/`authenticated` keys — in particular
for everything the app writes and for missing/malformed values. -/
theorem admin_persistence_spec (C : Type) :
    (∀ s : AdminState C,
      (storeAdmin s).role = none ∧ (storeAdmin s).authenticated = none ∧
      (storeAdmin s).history = none ∧ (storeAdmin s).future = none) ∧
    (∀ raw : Option (PersistedAdmin C),
      (loadAdminState raw).history = [] ∧ (loadAdminState raw).future = []) ∧
    (∀ p : PersistedAdmin C, p.role = none → p.authenticated = none →
      (loadAdminState (some p)).role = none ∧
      (loadAdminState (some p)).authenticated = false) ∧
    ((loadAdminState (none : Option (PersistedAdmin C))).role = none ∧
      (loadAdminState (none : Option (PersistedAdmin C))).authenticated = false) ∧
    (∀ s : AdminState C,
      (loadAdminState (some (storeAdmin s))).role = none ∧
      (loadAdminState (some (storeAdmin s))).authenticated = false ∧
      (loadAdminState (some (storeAdmin s))).history = [] ∧
      (loadAdminState (some (storeAdmin s))).future = []) := by
  refine ⟨fun s => ⟨rfl, rfl, rfl, rfl⟩, ?_, ?_, ⟨rfl, rfl⟩, fun s => ⟨rfl, rfl, rfl, rfl⟩⟩
  · intro raw
    cases raw with
    | none => exact ⟨rfl, rfl⟩
    | some p => exact ⟨rfl, rfl⟩
  · intro p hrole hauth
    constructor
    · simp [loadAdminState, hrole, defaultAdminState]
    · simp [loadAdminState, hauth, defaultAdminState]

/-- A benign concrete persisted value (only a preview preference). -/
def previewOnlyPersisted : PersistedAdmin Nat := { preview := some Preview.mobile }

/-- Witness for `admin_persistence_spec`: loading a concrete stored value
with no `role`/`authenticated` keys yields an unauthenticated state. -/
theorem admin_persistence_spec_witness :
    previewOnlyPersisted.role = none ∧
    (loadAdminState (some previewOnlyPersisted)).role = none ∧
    (loadAdminState (some previewOnlyPersisted)).authenticated = false :=
  ⟨rfl,
   ((admin_persistence_spec Nat).2.2.1 previewOnlyPersisted rfl rfl).1,
   ((admin_persistence_spec Nat).2.2.1 previewOnlyPersisted rfl rfl).2⟩

/-! ### Contact endpoint (src/app/api/contact/route.ts)

A JSON value model for the request body.  `POST (some v)` models a body that
parsed to `v`; `POST none` models `request.json()` throwing.  `jsTruthy`
models JavaScript truthiness (the route guards with
`!payload?.email || !payload?.name || !payload?.message`), and `jsGet`
models the optional-chained property access `payload?.key` (`none` stands
for `undefined`: non-objects have no such property). -/

inductive Json where
  | null
  | bool (b : Bool)
  | num (n : Int)
  | str (s : String)
  | arr (elems : List Json)
  | obj (fields : List (String × Json))

def jsTruthy : Json → Bool
  | Json.null => false
  | Json.bool b => b
  | Json.num n => n != 0
  | Json.str s => s != ""
  | Json.arr _ => true
  | Json.obj _ => true

def jsGet (j : Json) (key : String) : Option Json :=
  match j with
  | Json.obj fields => fields.lookup key
  | _ => none

def jsTruthyOpt : Option Json → Bool
  | none => false
  | some j => jsTruthy j

structure ContactResponse where
  status : Nat
  ok : Bool
deriving DecidableEq

/-- The `POST` handler (route.ts lines 3-13): a parse failure returns
status 500 with `ok: false`; a payload with any of the three checked
properties falsy returns status 400 with `ok: false`; otherwise the default
status 200 with `ok: true`. -/
def contactPOST (body : Option Json) : ContactResponse :=
  match body with
  | none => ⟨500, false⟩
  | some payload =>
    if !jsTruthyOpt (jsGet payload "email") || !jsTruthyOpt (jsGet payload "name") ||
        !jsTruthyOpt (jsGet payload "message") then
      ⟨400, false⟩
    else
      ⟨200, true⟩

/-- The success condition as the claim words it, taken from the spec: the body is
a JSON object containing string fields `email`, `name` and `message`. -/
def containsRequiredStringFields (j : Json) : Bool :=
  (match jsGet j "email" with | some (Json.str _) => true | _ => false) &&
  (match jsGet j "name" with | some (Json.str _) => true | _ => false) &&
  (match jsGet j "message" with | some (Json.str _) => true | _ => false)

/-- A body that contains the three required string fields but whose `email`
is the empty string. -/
def emptyEmailBody : Json :=
  Json.obj [("email", Json.str ""), ("name", Json.str "n"), ("message", Json.str "m")]

/-- C8 counterexample: a parsed JSON body containing all three required
string fields is nevertheless rejected with status 400, because the route
checks JavaScript truthiness and the empty string is falsy — so "success
exactly when the required string fields are present" fails. -/
theorem contactPOST_empty_string_counterexample :
    containsRequiredStringFields emptyEmailBody = true ∧
    contactPOST (some emptyEmailBody) = ⟨400, false⟩ :=
  ⟨rfl, rfl⟩

/-- C8 (amended): the handler returns 200/`ok: true` exactly when the body
parses and each of `email`, `name`, `message` is present and truthy
(in particular a non-empty string); if any of the three is absent or falsy
it returns 400/`ok: false`; if the body fails to parse as JSON it returns
500/`ok: false`. -/
theorem contactPOST_spec (body : Option Json) :
    (body = none → contactPOST body = ⟨500, false⟩) ∧
    (∀ p, body = some p →
      jsTruthyOpt (jsGet p "email") = true → jsTruthyOpt (jsGet p "name") = true →
      jsTruthyOpt (jsGet p "message") = true →
      contactPOST body = ⟨200, true⟩) ∧
    (∀ p, body = some p →
      (jsTruthyOpt (jsGet p "email") = false ∨ jsTruthyOpt (jsGet p "name") = false ∨
        jsTruthyOpt (jsGet p "message") = false) →
      contactPOST body = ⟨400, false⟩) ∧
    ((contactPOST body).ok = true ↔
      ∃ p, body = some p ∧ jsTruthyOpt (jsGet p "email") = true ∧
        jsTruthyOpt (jsGet p "name") = true ∧ jsTruthyOpt (jsGet p "message") = true) := by
  refine ⟨?_, ?_, ?_, ?_⟩
  · intro h; rw [h]; rfl
  · intro p hp h1 h2 h3
    rw [hp]
    simp [contactPOST, h1, h2, h3]
  · intro p hp hor
    rw [hp]
    rcases hor with h | h | h <;> simp [contactPOST, h]
  · constructor
    · cases body with
      | none => intro h; exact absurd h (by simp [contactPOST])
      | some p =>
        intro h
        refine ⟨p, rfl, ?_, ?_, ?_⟩ <;>
          · by_contra hc
            simp only [Bool.not_eq_true] at hc
            simp [contactPOST, hc] at h
    · rintro ⟨p, rfl, h1, h2, h3⟩
      simp [contactPOST, h1, h2, h3]

/-- Witness for `contactPOST_spec`: a well-formed body succeeds with 200, a
body missing `message` fails with 400, a parse failure yields 500. -/
theorem contactPOST_spec_witness :
    contactPOST (some (Json.obj [("email", Json.str "a@b.c"), ("name", Json.str "A"),
        ("message", Json.str "hi")])) = ⟨200, true⟩ ∧
    contactPOST (some (Json.obj [("email", Json.str "a@b.c"), ("name", Json.str "A")])) =
      ⟨400, false⟩ ∧
    contactPOST none = ⟨500, false⟩ :=
  ⟨(contactPOST_spec _).2.1 _ rfl rfl rfl rfl,
   (contactPOST_spec _).2.2.1 _ rfl (Or.inr (Or.inr rfl)),
   (contactPOST_spec _).1 rfl⟩

/-! ### Gallery filter (page.tsx lines 781-787) -/

structure GalleryItem where
  title : String
  description : String
  category : String
  src : String
deriving DecidableEq

/-- `filteredGallery` (page.tsx lines 781-787): the category `"Все"` keeps
the whole list, any other category keeps the items whose `category` field
equals it. -/
def filteredGallery (filter : String) (galleryItems : List GalleryItem) : List GalleryItem :=
  if filter == "Все" then galleryItems
  else galleryItems.filter fun item => item.category == filter

/-- C9: the filter `"Все"` returns the item list unchanged; any other
category returns exactly the items whose `category` equals it — a sublist of
the input (original order preserved) whose members are precisely the
matching items. -/
theorem filteredGallery_spec (filter : String) (galleryItems : List GalleryItem) :
    (filter = "Все" → filteredGallery filter galleryItems = galleryItems) ∧
    (filter ≠ "Все" →
      filteredGallery filter galleryItems =
        galleryItems.filter (fun item => item.category == filter) ∧
      (filteredGallery filter galleryItems).Sublist galleryItems ∧
      (∀ it, it ∈ filteredGallery filter galleryItems ↔
        it ∈ galleryItems ∧ it.category = filter)) := by
  constructor
  · intro h
    simp [filteredGallery, h]
  · intro h
    have hcond : (filter == "Все") = false := by simp [h]
    refine ⟨by simp [filteredGallery, hcond], ?_, ?_⟩
    · simp only [filteredGallery, hcond, Bool.false_eq_true, if_false]
      exact List.filter_sublist galleryItems
    · intro it
      simp [filteredGallery, hcond, List.mem_filter]

/-- Witness for `filteredGallery_spec` on a concrete two-category list. -/
theorem filteredGallery_spec_witness :
    filteredGallery "Все" [⟨"a", "", "UI", ""⟩, ⟨"b", "", "Web", ""⟩] =
      [⟨"a", "", "UI", ""⟩, ⟨"b", "", "Web", ""⟩] ∧
    filteredGallery "UI" [⟨"a", "", "UI", ""⟩, ⟨"b", "", "Web", ""⟩] =
      [⟨"a", "", "UI", ""⟩] :=
  ⟨(filteredGallery_spec "Все" [⟨"a", "", "UI", ""⟩, ⟨"b", "", "Web", ""⟩]).1 rfl,
   ((filteredGallery_spec "UI" [⟨"a", "", "UI", ""⟩, ⟨"b", "", "Web", ""⟩]).2
      (by decide)).1⟩

end LandingBlue
